import Mathlib

/-!
Verification of the state-reconciliation engine of the osx_pkg_installer
module (src/lib/ansible/modules/packaging/os/osx_pkg_installer.py).

The Python module is shallowly embedded: pure helpers become Lean
functions on `String`/`List Char`; the stateful engine becomes explicit
state passing in a small state-plus-exceptions monad `M`; the external
world (the AnsibleModule harness, the filesystem, and the two external
command-line tools) is an explicit `Env` record of oracles.  External
commands, file deletions and directory removals are recorded as an
ordered `Event` trace so that temporal claims about the run can be
stated as facts about the trace.

String operations are implemented over `List Char` (Python `str.split`,
`str.strip`, `os.path.join`, ...) so that every definition reduces in
the kernel and closed runs can be settled by `decide`.
-/

namespace OsxPkg

/-! ## Python-level values

Payloads of `PkgException` and of `fail_json` are heterogeneous Python
tuples; they are modelled as lists of `PyVal`. -/

inductive PyVal where
  | str (s : String)
  | int (n : Int)
  deriving DecidableEq, Repr

/-- Decidable equality for `Except`, so that closed parser results can
be settled by `decide`. -/
instance {ε α : Type} [DecidableEq ε] [DecidableEq α] : DecidableEq (Except ε α) := fun x y =>
  match x, y with
  | .ok a, .ok b =>
    if h : a = b then .isTrue (by rw [h]) else .isFalse (fun hh => h (Except.ok.inj hh))
  | .error a, .error b =>
    if h : a = b then .isTrue (by rw [h]) else .isFalse (fun hh => h (Except.error.inj hh))
  | .ok _, .error _ => .isFalse (fun hh => Except.noConfusion hh)
  | .error _, .ok _ => .isFalse (fun hh => Except.noConfusion hh)

/-! ## String helpers (Python semantics, executable in the kernel)

Built-in `String` functions such as `String.splitOn` are implemented on
byte positions and do not reduce in the kernel, so the Python string
operations used by the module are re-implemented over `List Char`. -/

/-- Python `str.split(sep)` for a one-character separator: keeps empty
pieces, and splitting the empty string yields one empty piece. -/
def splitChar (sep : Char) : List Char → List (List Char)
  | [] => [[]]
  | c :: rest =>
    match splitChar sep rest with
    | [] => [[]]
    | h :: t => if c = sep then [] :: h :: t else (c :: h) :: t

/-- Python `str.split(sep)` on `String`s. -/
def pySplit (sep : Char) (s : String) : List String :=
  (splitChar sep s.data).map String.mk

/-- The characters Python `str.strip()` removes. -/
def isPySpace (c : Char) : Bool :=
  c = ' ' ∨ c = '\t' ∨ c = '\n' ∨ c = '\r' ∨ c = '\x0b' ∨ c = '\x0c'

/-- Python `str.strip()`: drop leading and trailing whitespace. -/
def pyStrip (s : String) : String :=
  String.mk (((s.data.dropWhile isPySpace).reverse.dropWhile isPySpace).reverse)

/-- `s` begins with `p` (Python `str.startswith`). -/
def strHasPre (p s : String) : Bool := p.data.isPrefixOf s.data

/-- `s` ends with `p` (Python `str.endswith`). -/
def strHasSuf (p s : String) : Bool := p.data.isSuffixOf s.data

/-- Python `int(s)` on a decimal string: optional surrounding
whitespace, an optional sign, then at least one digit; any other shape
raises `ValueError` (modelled as `none`).  (Underscore separators of
recent Python versions are not modelled; no transcript in scope uses
them.) -/
def pyInt (s : String) : Option Int :=
  let t := (s.data.dropWhile isPySpace).reverse.dropWhile isPySpace |>.reverse
  let (sign, digits) : Int × List Char :=
    match t with
    | '-' :: rest => (-1, rest)
    | '+' :: rest => (1, rest)
    | _ => (1, t)
  if digits ≠ [] ∧ digits.all Char.isDigit then
    some (sign * (digits.foldl (fun acc c => 10 * acc + (c.toNat - '0'.toNat)) 0 : Nat))
  else
    none

/-! ## Transcript parser (`parse_out`, source lines 170-176)

The source matches `re.match(r'[\s\S]*' + key + r': (.*)', std_out)`.
The leading wildcard is greedy, so the regex engine commits to the
LAST position of the transcript at which `key: ` occurs, and the group
`(.*)` captures from there to the end of that line.  `lastMatch`
reproduces exactly that: it prefers a match in the tail of the text and
only then looks at the current position. -/

/-- The capture of `(.*)`: everything up to the next newline. -/
def takeLine (l : List Char) : List Char := l.takeWhile (fun c => c ≠ '\n')

/-- Value captured at the last occurrence of `pat` in `l`, if any. -/
def lastMatch (pat : List Char) : List Char → Option (List Char)
  | [] => if pat.isPrefixOf ([] : List Char) then some (takeLine (List.drop pat.length [])) else none
  | c :: rest =>
    match lastMatch pat rest with
    | some v => some v
    | none =>
      if pat.isPrefixOf (c :: rest) then some (takeLine ((c :: rest).drop pat.length))
      else none

/-- `parse_out(key, std_out)` (source lines 170-176): the value at the
last occurrence of `key: ` in the transcript, or
`PkgException("Key not found in output.", key, std_out)`. -/
def parse_out (key std_out : String) : Except (List PyVal) String :=
  match lastMatch (key ++ ": ").data std_out.data with
  | some v => .ok (String.mk v)
  | none => .error [.str "Key not found in output.", .str key, .str std_out]

/-! ## Filesystem path model -/

/-- `os.path.join` for two POSIX components: an absolute second
component discards the first; otherwise the parts are joined with a
single separator unless the first already ends in one or is empty. -/
def os_path_join (a b : String) : String :=
  if strHasPre "/" b then b
  else if a = "" ∨ strHasSuf "/" a then a ++ b
  else a ++ "/" ++ b

/-- `os.path.realpath` on a symlink-free filesystem, for absolute
inputs: resolve `.` and `..` and collapse repeated separators, yielding
a normalized absolute path.  This models the behaviour the unit test
test_parse_pkg_info records (`realpath('//Library/...') ==
'/Library/...'`). -/
def realpath_model (path : String) : String :=
  let comps := splitChar '/' path.data
  let final := comps.foldl
    (fun acc c =>
      if c = [] ∨ c = ['.'] then acc
      else if c = ['.', '.'] then acc.dropLast
      else acc ++ [c]) ([] : List (List Char))
  "/" ++ String.intercalate "/" (final.map String.mk)

/-! ## Package records (`parse_pkg_info`, source lines 179-192) -/

/-- The structured record `parse_pkg_info` builds.  The Python dict
also carries `install_datetime`, a local-time rendering of
`install_timestamp` produced by `datetime.datetime.fromtimestamp`; it
is a derived rendering of the same integer and is not modelled
separately. -/
structure PkgRecord where
  package_id : String
  version : String
  volume : String
  location : String
  root_dir : String
  install_timestamp : Int
  deriving DecidableEq, Repr

/-- `parse_pkg_info(std_out)` (source lines 179-192).  The source
computes `int(parse_out('install-time', ...))` first, then `volume`,
`location`, and then the remaining keys, so errors surface in that
order.  `root_dir` is `realpath(volume + '/' + location)` — plain
string concatenation; the source comment reads "join cannot merge
absolute dirs join('/foo','/')=='/'".  The ambient `realpath` is a
parameter (an oracle for the host filesystem). -/
def parse_pkg_info (realpath : String → String) (std_out : String) :
    Except (List PyVal) PkgRecord :=
  match parse_out "install-time" std_out with
  | .error e => .error e
  | .ok installTimeStr =>
    match pyInt installTimeStr with
    | none => .error [.str "invalid literal for int() with base 10:", .str installTimeStr]
    | some install_timestamp =>
      match parse_out "volume" std_out with
      | .error e => .error e
      | .ok volume =>
        match parse_out "location" std_out with
        | .error e => .error e
        | .ok location =>
          match parse_out "package-id" std_out with
          | .error e => .error e
          | .ok package_id =>
            match parse_out "version" std_out with
            | .error e => .error e
            | .ok version =>
              .ok { package_id := package_id
                    version := version
                    volume := volume
                    location := location
                    root_dir := realpath (volume ++ "/" ++ location)
                    install_timestamp := install_timestamp }

/-! ## File manifests (`parse_package_files`, source lines 215-223) -/

/-- `parse_package_files(root_dir, std_out)` (source lines 215-223):
split the listing on newlines and join each entry onto `root_dir`,
skipping the empty string and the literal `Applications` (the source
comment: protect end users from deleting `/`, `/Applications`, `~`,
`~/Applications`).  Written as the fold the Python `for` loop performs. -/
def parse_package_files (root_dir std_out : String) : List String :=
  (pySplit '\n' std_out).foldl
    (fun files path_tail =>
      if path_tail ≠ "" ∧ path_tail ≠ "Applications" then
        files ++ [os_path_join root_dir path_tail]
      else files)
    []

/-! ## The external world

`Env` collects every oracle the engine consults: the harness flags
(privilege, check mode), the results of external commands, and the
filesystem predicates.  The world is stateless within one run: the
engine takes all its probes before it mutates anything (§5 of the
spec), so a fixed oracle per command is faithful for the probing
phase, and the mutations themselves are recorded as events rather
than applied to the oracle. -/

structure Env where
  /-- `os.geteuid() == 0`. -/
  isRoot : Bool
  /-- `os.path.expanduser('~')`. -/
  home : String
  /-- `module.check_mode` (the harness runs the module in check mode). -/
  checkMode : Bool
  /-- Result `(rc, stdout, stderr)` of spawning an external command. -/
  run : List String → Int × String × String
  /-- `os.path.exists`. -/
  pathExists : String → Bool
  /-- `os.path.isfile`. -/
  isFile : String → Bool
  /-- `os.path.isdir`. -/
  isDir : String → Bool
  /-- `os.path.realpath`. -/
  realpath : String → String

/-- One entry of `verbose_result['commands']` (the audit trail). -/
structure CmdEntry where
  command_list : List String
  check_rc : Bool
  rc : Int
  stdout : String
  stderr : String
  deriving DecidableEq, Repr

/-- Externally visible actions of one run, in execution order:
a spawned external command (`module.run_command`), a recursive
directory removal (`shutil.rmtree`) or a file deletion (`os.remove`). -/
inductive Event where
  | cmd (args : List String)
  | rmtree (path : String)
  | remove (path : String)
  deriving DecidableEq, Repr

/-- `result['pkg_info']`: a present record or the absent marker. -/
inductive PkgInfoR where
  | present (rec : PkgRecord)
  | absent
  deriving DecidableEq, Repr

/-- The `result` dict assembled by `run_module` (source lines 318-321
and the assignments scattered through the helpers).  Optional fields
are keys the run may or may not have set. -/
structure ResultRec where
  changed : Bool
  message : String
  pkg_info : Option PkgInfoR := none
  pkg_files : Option (List String) := none
  forget : Option (Int × String × String) := none
  installed_packages : List (Nat × List String) := []
  new_packages : Option (Finset String) := none
  files : Option (List String) := none
  error : Option (List PyVal) := none
  deriving DecidableEq

/-- Run state: a logical clock standing in for `gen_timestamp`, the
event trace, the `verbose_result` keys the source writes, and the
`result` record. -/
structure St where
  clock : Nat := 0
  events : List Event := []
  /-- `verbose_result['commands']`, the audit trail. -/
  commands : List (Nat × CmdEntry) := []
  /-- `verbose_result['all_packages']`. -/
  all_packages : Option (Int × String × String) := none
  /-- `verbose_result['removal']`. -/
  removal : List String := []
  /-- `verbose_result['files']`. -/
  files_v : Option (List String) := none
  /-- `messages`, the list joined into `verbose_result['messages']`. -/
  messages : List String := []
  result : ResultRec := { changed := false, message := "" }
  deriving DecidableEq

/-- The initial state of a run. -/
def St.init : St := {}

/-- How a run aborts: a `PkgException`-style Python exception caught by
`run_module`'s handler (carrying its `args` tuple), or a fatal
`fail_json`/`SystemExit` raised inside the AnsibleModule harness (not
caught by `except Exception`). -/
inductive Err where
  | pkgExc (args : List PyVal)
  | fatal (msg : String)
  deriving DecidableEq, Repr

/-! ## The run monad: state plus Python exceptions -/

def M (α : Type) : Type := St → St × Except Err α

def M.pure {α : Type} (a : α) : M α := fun s => (s, .ok a)

def M.bind {α β : Type} (x : M α) (f : α → M β) : M β := fun s =>
  match x s with
  | (s1, .ok a) => f a s1
  | (s1, .error e) => (s1, .error e)

instance : Monad M where
  pure := M.pure
  bind := M.bind

/-- Raise a Python exception. -/
def M.throw {α : Type} (e : Err) : M α := fun s => (s, .error e)

/-- Update the run state. -/
def M.modify (f : St → St) : M Unit := fun s => (f s, .ok ())

/-- Read the run state. -/
def M.get : M St := fun s => (s, .ok s)

/-! ## The engine, function by function -/

/-- `gen_timestamp()` (source lines 152-153): the source takes the
current UTC time; modelled as a strictly increasing logical clock, so
successive timestamps are distinct and ordered. -/
def gen_timestamp : M Nat := fun s => ({ s with clock := s.clock + 1 }, .ok s.clock)

/-- Modelled from the spec: `AnsibleModule.run_command` — the process
invocation wrapper the spec excludes from the core (§1) and specifies
at its boundary in §4.1: it spawns the command and returns
`(exit code, stdout, stderr)`; when `check_rc` is true a nonzero exit
is fatal for the caller (the harness calls `fail_json` and the run
terminates without reaching any code after the call).  The attempt is
recorded in the event trace. -/
def module_run_command (env : Env) (command_list : List String) (check_rc : Bool) :
    M (Int × String × String) := do
  M.modify fun s => { s with events := s.events ++ [.cmd command_list] }
  let (rc, out, err) := env.run command_list
  if check_rc ∧ rc ≠ 0 then
    M.throw (.fatal "process execution failed")
  else
    M.pure (rc, out, err)

/-- The fixed argument shapes of the external commands. -/
def infoCmd (package_id volume : String) : List String :=
  ["/usr/sbin/pkgutil", "--pkg-info", package_id, "--volume", volume]

def filesCmd (package_id volume : String) : List String :=
  ["/usr/sbin/pkgutil", "--files", package_id, "--volume", volume]

def forgetCmd (package_id volume : String) : List String :=
  ["/usr/sbin/pkgutil", "--forget", package_id, "--volume", volume]

def pkgsCmd (volume : String) : List String :=
  ["/usr/sbin/pkgutil", "--pkgs", "--volume", volume]

def installerCmd (pkg_path target : String) : List String :=
  ["/usr/sbin/installer", "-pkg", pkg_path, "-target", target]

/-- `run_command(module, verbose_result, command_list, check_rc)`
(source lines 156-167): invoke the command through the harness, then
append one timestamped entry to `verbose_result['commands']`. -/
def run_command (env : Env) (command_list : List String) (check_rc : Bool) :
    M (Int × String × String) := do
  let (rc, out, err) ← module_run_command env command_list check_rc
  let t ← gen_timestamp
  M.modify fun s =>
    { s with commands := s.commands ++
        [(t, { command_list := command_list, check_rc := check_rc,
               rc := rc, stdout := out, stderr := err })] }
  M.pure (rc, out, err)

/-- `pkg_info(module, result, verbose_result, package_id, volume)`
(source lines 195-212): info query with `check_rc=False`; exit 0 means
present (parse the transcript), nonzero means absent.
`result['pkg_info']` is assigned after a successful parse, so a parse
failure propagates before the key is written. -/
def pkg_info (env : Env) (package_id volume : String) : M PkgInfoR := do
  let (rc, out, _err) ← run_command env (infoCmd package_id volume) false
  if rc = 0 then
    match parse_pkg_info env.realpath out with
    | .ok rec => do
      M.modify fun s => { s with result := { s.result with pkg_info := some (.present rec) } }
      M.pure (.present rec)
    | .error e => M.throw (.pkgExc e)
  else do
    M.modify fun s => { s with result := { s.result with pkg_info := some .absent } }
    M.pure .absent

/-- `package_files(module, result, verbose_result, package_id, volume)`
(source lines 226-232): resolve the info record, run the files listing
with `check_rc=True`, then build the manifest from `info['root_dir']`.
When the package is absent the info dict has no `root_dir` key, so the
Python dict access raises `KeyError` — after the listing command has
already run. -/
def package_files (env : Env) (package_id volume : String) : M (List String) := do
  let info ← pkg_info env package_id volume
  let (_rc, out, _err) ← run_command env (filesCmd package_id volume) true
  match info with
  | .present rec => do
    let files := parse_package_files rec.root_dir out
    M.modify fun s => { s with result := { s.result with pkg_files := some files } }
    M.pure files
  | .absent => M.throw (.pkgExc [.str "root_dir"])

/-- `forget_package(module, result, verbose_result, package_id, volume)`
(source lines 234-239): forget the receipt with `check_rc=True` and
record the triple under `result['forget']`. -/
def forget_package (env : Env) (package_id volume : String) :
    M (Int × String × String) := do
  let (rc, out, err) ← run_command env (forgetCmd package_id volume) true
  M.modify fun s => { s with result := { s.result with forget := some (rc, out, err) } }
  M.pure (rc, out, err)

/-- `is_present(module, result, verbose_result, creates, package_id, volume)`
(source lines 241-248): the package-id oracle when one is supplied,
otherwise existence of the `creates` path. -/
def is_present (env : Env) (creates : String) (package_id : Option String)
    (volume : String) : M Bool := do
  match package_id with
  | some pid => do
    let info ← pkg_info env pid volume
    M.pure (match info with | .present _ => true | .absent => false)
  | none => M.pure (env.pathExists creates)

/-- `install(module, result, verbose_result, pkg_path, target)`
(source lines 251-259): resolve the package path, fail when it is not
a regular file, otherwise run the apply tool with `check_rc=True`. -/
def install (env : Env) (pkg_path target : String) : M Unit := do
  let real_pkg_path := env.realpath pkg_path
  if env.isFile real_pkg_path then do
    let _ ← run_command env (installerCmd pkg_path target) true
    M.pure ()
  else
    M.throw (.pkgExc [.str ("pkg file not found at " ++ real_pkg_path)])

/-- The `for file_path in files` loop of `uninstall` (source lines
266-272): directories are removed recursively, regular files are
deleted, anything else is skipped; each removal is narrated in
`verbose_result['removal']` and recorded as an event. -/
def remove_files (env : Env) : List String → M Unit
  | [] => M.pure ()
  | file_path :: rest => do
    if env.isDir file_path then
      M.modify fun s =>
        { s with removal := s.removal ++ ["Removing directory: " ++ file_path],
                 events := s.events ++ [.rmtree file_path] }
    else if env.isFile file_path then
      M.modify fun s =>
        { s with removal := s.removal ++ ["Removing file: " ++ file_path],
                 events := s.events ++ [.remove file_path] }
    else
      M.pure ()
    remove_files env rest

/-- `uninstall(module, result, verbose_result, package_id, volume)`
(source lines 262-274): enumerate the manifest, record it, delete each
entry, and only then forget the receipt. -/
def uninstall (env : Env) (package_id volume : String) : M Unit := do
  let files ← package_files env package_id volume
  M.modify fun s => { s with files_v := some files, removal := [] }
  remove_files env files
  let _ ← forget_package env package_id volume
  M.pure ()

/-- `list_all_packages(module, result, verbose_result, volume)`
(source lines 277-291): note the source calls `module.run_command`
directly — not the `run_command` wrapper — so this command is recorded
under `verbose_result['all_packages']` and never in the audit trail;
`check_rc` is left at the harness default `False` and a nonzero exit
raises `PkgException('installer failed', rc, out, err)` instead. -/
def list_all_packages (env : Env) (volume : String) : M (List String) := do
  let (rc, out, err) ← module_run_command env (pkgsCmd volume) false
  M.modify fun s => { s with all_packages := some (rc, out, err) }
  if rc ≠ 0 then
    M.throw (.pkgExc [.str "installer failed", .int rc, .str out, .str err])
  else do
    let package_list := pySplit '\n' (pyStrip out)
    let t ← gen_timestamp
    M.modify fun s =>
      { s with result := { s.result with
          installed_packages := s.result.installed_packages ++ [(t, package_list)] } }
    M.pure package_list

/-- `find_new_packages(module, result, verbose_result, volume,
original_package_list)` (source lines 294-297): a fresh snapshot minus
the baseline, `list(set(new) - set(original))`.  A Python `set` is
unordered, so the value is modelled as a `Finset`. -/
def find_new_packages (env : Env) (volume : String)
    (original_package_list : List String) : M (Finset String) := do
  let new_package_list ← list_all_packages env volume
  let new_packages := new_package_list.toFinset \ original_package_list.toFinset
  M.modify fun s => { s with result := { s.result with new_packages := some new_packages } }
  M.pure new_packages

/-! ## The top-level run (`run_module`, source lines 300-405) -/

/-- The caller-supplied task parameters; `none` means the caller did
not supply the key. -/
structure Params where
  app_name : Option String := none
  pkg_path : Option String := none
  creates : Option String := none
  state : Option String := none
  target : Option String := none
  package_id : Option String := none
  confident_to_remove : Option Bool := none
  deriving DecidableEq, Repr

/-- The parameters as `module.params` hands them to `run_module`.
`pkg_path` keeps type `Option String` because the Python value can in
principle be `None` (the source checks `pkg_path is None`), but
argument resolution below never produces `none` for it. -/
structure ResolvedParams where
  app_name : String
  pkg_path : Option String
  creates : Option String
  state : String
  target : Option String
  package_id : Option String
  confident_to_remove : Bool
  deriving DecidableEq, Repr

/-- Modelled from the spec: the CLI-binding layer (`AnsibleModule`,
excluded from the core per §1 and described in §6) validates the
parameters against `run_module`'s `argument_spec` (source lines
301-309) and applies the declared defaults to parameters the caller
did not supply: `app_name` is required, `state` must be one of
`present`/`absent` and defaults to `present`, `pkg_path` defaults to
the EMPTY STRING (`default=''` in the argument spec), and
`confident_to_remove` defaults to `False`; `creates`, `target` and
`package_id` have no default.  `none` means the harness rejects the
parameters and the run never reaches `run_module`'s body. -/
def resolve_params (p : Params) : Option ResolvedParams :=
  match p.app_name with
  | none => none
  | some app_name =>
    let state := match p.state with | none => "present" | some st => st
    if state = "present" ∨ state = "absent" then
      some { app_name := app_name
             pkg_path := some (match p.pkg_path with | none => "" | some v => v)
             creates := p.creates
             state := state
             target := p.target
             package_id := p.package_id
             confident_to_remove :=
               match p.confident_to_remove with | none => false | some b => b }
    else none

/-- The volume value of source lines 339-345: `/` as root, `$HOME`
otherwise. -/
def volume_of (env : Env) : String := if env.isRoot then "/" else env.home

/-- The target default of source lines 342-348. -/
def target_of (env : Env) (rp : ResolvedParams) : String :=
  match rp.target with
  | some t => t
  | none => if env.isRoot then "/" else "CurrentUserHomeDirectory"

/-- The `creates` default of source lines 349-350:
`os.path.join(volume, 'Applications', app_name + '.app')`. -/
def creates_of (env : Env) (rp : ResolvedParams) : String :=
  match rp.creates with
  | some c => c
  | none => os_path_join (os_path_join (volume_of env) "Applications") (rp.app_name ++ ".app")

/-- Rendering of a possibly-`None` Python string inside `'%s' % x`. -/
def pyShow (x : Option String) : String :=
  match x with | some v => v | none => "None"

/-- The check-or-act part of `run_module` (source lines 374-393): the
branch entered after `result['changed']` has been decided. -/
def run_module_action (env : Env) (rp : ResolvedParams) (target volume : String)
    (should_be_present originally_present : Bool) : M Unit := do
  if env.checkMode then
    M.modify fun s => { s with messages := s.messages ++
      ["Checking for " ++ rp.app_name ++ " for pkg at " ++ pyShow rp.pkg_path] }
  else do
    M.modify fun s => { s with messages := s.messages ++
      ["Running for " ++ rp.app_name ++ " for pkg at " ++ pyShow rp.pkg_path] }
    if should_be_present then
      if !originally_present then
        -- pkg_path cannot be Python None here: line 358 already threw
        install env (pyShow rp.pkg_path) target
      else M.pure ()
    else
      if originally_present then do
        -- package_id cannot be None here: line 362 already threw
        let pid := pyShow rp.package_id
        let files ← package_files env pid volume
        M.modify fun s => { s with files_v := some files }
        if rp.confident_to_remove then
          uninstall env pid volume
        else do
          M.modify fun s => { s with result := { s.result with files := some files } }
          M.throw (.pkgExc [.str "Not confident_to_remove this package",
                            .str "Review the files and become confident to continue"])
      else M.pure ()

/-- The probe-and-decide part of `run_module`'s `try` block (source
lines 356-371): validate the per-state required parameters, snapshot
the installed packages, probe presence, and decide `result['changed']`
(`originally_present != should_be_present`, where `should_be_present`
is `state == 'present'`).  Returns `originally_present`. -/
def run_module_probe (env : Env) (rp : ResolvedParams) : M Bool := do
  let volume := volume_of env
  let creates := creates_of env rp
  M.modify fun s => { s with messages := s.messages ++
    [if env.isRoot then "Running as root" else "Running as unprivileged user"] }
  if rp.state = "present" ∧ rp.pkg_path = none then
    M.throw (.pkgExc [.str "Missing pkg_path when state is present"])
  else M.pure ()
  if rp.state = "absent" ∧ rp.package_id = none then
    M.throw (.pkgExc [.str "Missing package_id when state is absent"])
  else M.pure ()
  let _original_package_list ← list_all_packages env volume
  let originally_present ← is_present env creates rp.package_id volume
  M.modify fun s => { s with result := { s.result with
    changed := originally_present != decide (rp.state = "present") } }
  M.pure originally_present

/-- The body of `run_module`'s `try` block (source lines 356-399):
probe and decide, then check or act. -/
def run_module_try (env : Env) (rp : ResolvedParams) : M Unit := do
  let originally_present ← run_module_probe env rp
  run_module_action env rp (target_of env rp) (volume_of env)
    (decide (rp.state = "present")) originally_present

/-- How one invocation of the module ends: `module.exit_json(**result)`
on success, `module.fail_json(msg=str(e), **result)` from the
`except Exception` handler (the message is the string rendering of the
exception `args`), a fatal `fail_json` raised inside the harness by a
`check_rc=True` command (which reports the command failure, not the
`result` record), or a rejection of the parameters by the harness. -/
inductive FinalOut where
  | exitJson (r : ResultRec)
  | failJson (args : List PyVal) (r : ResultRec)
  | fatalExit (msg : String)
  | paramError
  deriving DecidableEq

/-- `run_module()` (source lines 300-405): resolve the parameters, run
the `try` block from the initial state, and translate its outcome: on a
caught exception, `result['error'] = e.args` and the run fails with the
accumulated `result` attached. -/
def run_module (env : Env) (p : Params) : St × FinalOut :=
  match resolve_params p with
  | none => (St.init, .paramError)
  | some rp =>
    match run_module_try env rp St.init with
    | (s, .ok ()) => (s, .exitJson s.result)
    | (s, .error (.pkgExc args)) =>
      let r := { s.result with error := some args }
      ({ s with result := r }, .failJson args r)
    | (s, .error (.fatal m)) => (s, .fatalExit m)

/-- The deletions the uninstall loop performs, in manifest order:
directories are removed recursively, files deleted, and a manifest
entry that is neither an existing directory nor an existing file
produces nothing. -/
def delEvents (env : Env) (files : List String) : List Event :=
  files.filterMap fun f =>
    if env.isDir f then some (.rmtree f)
    else if env.isFile f then some (.remove f)
    else none

/-- The matching `verbose_result['removal']` narration. -/
def delNarration (env : Env) (files : List String) : List String :=
  files.filterMap fun f =>
    if env.isDir f then some ("Removing directory: " ++ f)
    else if env.isFile f then some ("Removing file: " ++ f)
    else none

/-! ## Statement-level derived notions -/

/-- The outcome of the initial presence probe as a pure function of the
environment: with a `package_id` the probe is the info-query exit code
(source `is_present`, package-id branch); otherwise it is existence of
the `creates` path. -/
def probed_presence (env : Env) (creates : String) (package_id : Option String)
    (volume : String) : Bool :=
  match package_id with
  | some pid => (env.run (infoCmd pid volume)).1 = 0
  | none => env.pathExists creates

/-- The info probe behaves like the real info tool: whenever it exits
0, its transcript parses into a record.  (When it does not, `pkg_info`
raises before the decision is taken.) -/
def info_wellformed (env : Env) (package_id : Option String) (volume : String) : Prop :=
  match package_id with
  | some pid =>
    (env.run (infoCmd pid volume)).1 = 0 →
      (parse_pkg_info env.realpath (env.run (infoCmd pid volume)).2.1).isOk = true
  | none => True

/-- The probe events a run emits before any decision: the list-all
snapshot and, when a package-id oracle is in play, the info query. -/
def probeEvents (package_id : Option String) (volume : String) : List Event :=
  [.cmd (pkgsCmd volume)] ++
    (match package_id with
     | some pid => [.cmd (infoCmd pid volume)]
     | none => [])

def FinalOut.isExit : FinalOut → Bool
  | .exitJson _ => true
  | _ => false

/-- The `result` record an outcome reports, when it reports one
(`exit_json` and the handler's `fail_json` both splat `**result`). -/
def FinalOut.resultOf : FinalOut → Option ResultRec
  | .exitJson r => some r
  | .failJson _ r => some r
  | _ => none

/-! ## Concrete fixtures for witnesses and counterexamples -/

/-- A well-formed info transcript for package `com.x` installed at
volume `/`, location `Library/X`. -/
def wTranscript : String :=
  "package-id: com.x\nversion: 1.0\nvolume: /\nlocation: Library/X\ninstall-time: 100"

/-- A host on which `com.x` is installed with two manifest entries, of
which the first is a regular file and the second no longer exists. -/
def wEnv : Env :=
  { isRoot := true
    home := "/root"
    checkMode := false
    run := fun args =>
      if args = pkgsCmd "/" then (0, "a.pkg\ncom.x", "")
      else if args = infoCmd "com.x" "/" then (0, wTranscript, "")
      else if args = filesCmd "com.x" "/" then (0, "f1\nf2", "")
      else if args = forgetCmd "com.x" "/" then (0, "Forgot package com.x.", "")
      else (1, "", "")
    pathExists := fun _ => false
    isFile := fun p => p = "/Library/X/f1"
    isDir := fun _ => false
    realpath := realpath_model }

/-- `wEnv` in check mode. -/
def wEnvCheck : Env := { wEnv with checkMode := true }

/-- An absent-state task for `com.x`, not yet confident to remove. -/
def wParamsAbsent : Params :=
  { app_name := some "X", state := some "absent", package_id := some "com.x" }

/-- The same task with the safety gate enabled. -/
def wParamsAbsentConfident : Params :=
  { wParamsAbsent with confident_to_remove := some true }

/-- A present-state task for `com.x` with a package path supplied. -/
def wParamsPresent : Params :=
  { app_name := some "X", state := some "present",
    pkg_path := some "/tmp/x.pkg", package_id := some "com.x" }

/-- A transcript whose `location` is an absolute path. -/
def c5Transcript : String :=
  "package-id: com.example.pkg\nversion: 1.0\nvolume: /vol\nlocation: /Apps\ninstall-time: 100"

/-- A host for the C9 witness: five installed packages. -/
def c9Env : Env :=
  { wEnv with run := fun args =>
      if args = pkgsCmd "/" then (0, "a\nb\nc\nd\ne", "") else (1, "", "") }

/-- The C8 failing input: `state=present`, `pkg_path` omitted by the
caller (so the harness applies the declared default `''`), and the
package already present on the host. -/
def c8Params : Params := { app_name := some "X", package_id := some "com.x" }

/-! ## Unfolding and execution lemmas -/

theorem M.bind_def {α β : Type} (x : M α) (f : α → M β) : (x >>= f) = M.bind x f := rfl

theorem M.pure_def {α : Type} (a : α) : (pure a : M α) = M.pure a := rfl

/-- A command run through the wrapper with `check_rc=False`: one event,
one audit-trail entry, result returned whatever the exit code. -/
theorem run_command_noCheck (env : Env) (args : List String) (rc : Int) (out err : String)
    (h : env.run args = (rc, out, err)) (s : St) :
    run_command env args false s =
      ({ s with clock := s.clock + 1,
                events := s.events ++ [.cmd args],
                commands := s.commands ++ [(s.clock,
                  { command_list := args, check_rc := false,
                    rc := rc, stdout := out, stderr := err })] },
       .ok (rc, out, err)) := by
  simp [run_command, module_run_command, gen_timestamp,
        M.bind_def, M.bind, M.pure_def, M.pure, M.modify, M.throw, h]

/-- A command run through the wrapper with `check_rc=True` that exits 0. -/
theorem run_command_ok (env : Env) (args : List String) (out err : String)
    (h : env.run args = (0, out, err)) (s : St) :
    run_command env args true s =
      ({ s with clock := s.clock + 1,
                events := s.events ++ [.cmd args],
                commands := s.commands ++ [(s.clock,
                  { command_list := args, check_rc := true,
                    rc := 0, stdout := out, stderr := err })] },
       .ok (0, out, err)) := by
  simp [run_command, module_run_command, gen_timestamp,
        M.bind_def, M.bind, M.pure_def, M.pure, M.modify, M.throw, h]

/-- A command run through the wrapper with `check_rc=True` that exits
nonzero: the harness aborts the run inside `module.run_command`, so the
attempt is in the event trace but the wrapper never appends its
audit-trail entry. -/
theorem run_command_fatal (env : Env) (args : List String) (rc : Int) (out err : String)
    (h : env.run args = (rc, out, err)) (hrc : rc ≠ 0) (s : St) :
    run_command env args true s =
      ({ s with events := s.events ++ [.cmd args] },
       .error (.fatal "process execution failed")) := by
  simp [run_command, module_run_command, gen_timestamp,
        M.bind_def, M.bind, M.pure_def, M.pure, M.modify, M.throw, h, hrc]

/-- A successful `list_all_packages`: one event, `all_packages`
recorded, the snapshot stamped into `result['installed_packages']` —
and no audit-trail entry. -/
theorem list_all_packages_ok (env : Env) (volume : String) (out err : String)
    (h : env.run (pkgsCmd volume) = (0, out, err)) (s : St) :
    list_all_packages env volume s =
      ({ s with clock := s.clock + 1,
                events := s.events ++ [.cmd (pkgsCmd volume)],
                all_packages := some (0, out, err),
                result := { s.result with installed_packages :=
                  s.result.installed_packages ++ [(s.clock, pySplit '\n' (pyStrip out))] } },
       .ok (pySplit '\n' (pyStrip out))) := by
  simp [list_all_packages, module_run_command, gen_timestamp,
        M.bind_def, M.bind, M.pure_def, M.pure, M.modify, M.throw, h]

/-- A failing `list_all_packages`: the attempt is traced,
`all_packages` records the failure, and the run raises
`PkgException('installer failed', ...)`. -/
theorem list_all_packages_fail (env : Env) (volume : String) (rc : Int) (out err : String)
    (h : env.run (pkgsCmd volume) = (rc, out, err)) (hrc : rc ≠ 0) (s : St) :
    list_all_packages env volume s =
      ({ s with events := s.events ++ [.cmd (pkgsCmd volume)],
                all_packages := some (rc, out, err) },
       .error (.pkgExc [.str "installer failed", .int rc, .str out, .str err])) := by
  simp [list_all_packages, module_run_command, gen_timestamp,
        M.bind_def, M.bind, M.pure_def, M.pure, M.modify, M.throw, h, hrc]

/-- An info query that exits 0 with a parsable transcript. -/
theorem pkg_info_present (env : Env) (pid volume : String) (out err : String)
    (rec : PkgRecord)
    (h : env.run (infoCmd pid volume) = (0, out, err))
    (hp : parse_pkg_info env.realpath out = .ok rec) (s : St) :
    pkg_info env pid volume s =
      ({ s with clock := s.clock + 1,
                events := s.events ++ [.cmd (infoCmd pid volume)],
                commands := s.commands ++ [(s.clock,
                  { command_list := infoCmd pid volume, check_rc := false,
                    rc := 0, stdout := out, stderr := err })],
                result := { s.result with pkg_info := some (.present rec) } },
       .ok (.present rec)) := by
  simp [pkg_info, M.bind_def, M.bind, M.pure_def, M.pure, M.modify,
        run_command_noCheck env _ _ _ _ h, hp]

/-- An info query that exits nonzero: the normal absence signal. -/
theorem pkg_info_absent (env : Env) (pid volume : String) (rc : Int) (out err : String)
    (h : env.run (infoCmd pid volume) = (rc, out, err)) (hrc : rc ≠ 0) (s : St) :
    pkg_info env pid volume s =
      ({ s with clock := s.clock + 1,
                events := s.events ++ [.cmd (infoCmd pid volume)],
                commands := s.commands ++ [(s.clock,
                  { command_list := infoCmd pid volume, check_rc := false,
                    rc := rc, stdout := out, stderr := err })],
                result := { s.result with pkg_info := some .absent } },
       .ok .absent) := by
  simp [pkg_info, M.bind_def, M.bind, M.pure_def, M.pure, M.modify,
        run_command_noCheck env _ _ _ _ h, hrc]

/-- A successful `package_files`: the info query, then the files
listing, then the manifest. -/
theorem package_files_ok (env : Env) (pid volume : String) (io ie fo fe : String)
    (rec : PkgRecord)
    (h1 : env.run (infoCmd pid volume) = (0, io, ie))
    (hp : parse_pkg_info env.realpath io = .ok rec)
    (h2 : env.run (filesCmd pid volume) = (0, fo, fe)) (s : St) :
    package_files env pid volume s =
      ({ s with clock := s.clock + 2,
                events := s.events ++ [.cmd (infoCmd pid volume), .cmd (filesCmd pid volume)],
                commands := s.commands ++
                  [(s.clock,
                    { command_list := infoCmd pid volume, check_rc := false,
                      rc := 0, stdout := io, stderr := ie }),
                   (s.clock + 1,
                    { command_list := filesCmd pid volume, check_rc := true,
                      rc := 0, stdout := fo, stderr := fe })],
                result := { s.result with
                  pkg_info := some (.present rec),
                  pkg_files := some (parse_package_files rec.root_dir fo) } },
       .ok (parse_package_files rec.root_dir fo)) := by
  simp [package_files, M.bind_def, M.bind, M.pure_def, M.pure, M.modify,
        pkg_info_present env pid volume io ie rec h1 hp,
        run_command_ok env _ _ _ h2]

/-- A successful `forget_package`. -/
theorem forget_package_ok (env : Env) (pid volume : String) (out err : String)
    (h : env.run (forgetCmd pid volume) = (0, out, err)) (s : St) :
    forget_package env pid volume s =
      ({ s with clock := s.clock + 1,
                events := s.events ++ [.cmd (forgetCmd pid volume)],
                commands := s.commands ++ [(s.clock,
                  { command_list := forgetCmd pid volume, check_rc := true,
                    rc := 0, stdout := out, stderr := err })],
                result := { s.result with forget := some (0, out, err) } },
       .ok (0, out, err)) := by
  simp [forget_package, M.bind_def, M.bind, M.pure_def, M.pure, M.modify,
        run_command_ok env _ _ _ h]

/-- A failing `forget_package`: the attempt is still traced, then the
harness aborts. -/
theorem forget_package_fatal (env : Env) (pid volume : String) (rc : Int) (out err : String)
    (h : env.run (forgetCmd pid volume) = (rc, out, err)) (hrc : rc ≠ 0) (s : St) :
    forget_package env pid volume s =
      ({ s with events := s.events ++ [.cmd (forgetCmd pid volume)] },
       .error (.fatal "process execution failed")) := by
  simp [forget_package, M.bind_def, M.bind, M.pure_def, M.pure, M.modify,
        run_command_fatal env _ _ _ _ h hrc]

/-- The uninstall loop never fails: it appends exactly the deletion
events and their narration, skipping entries that exist as neither
directory nor file. -/
theorem remove_files_trace (env : Env) (files : List String) : ∀ s : St,
    remove_files env files s =
      ({ s with removal := s.removal ++ delNarration env files,
                events := s.events ++ delEvents env files }, .ok ()) := by
  induction files with
  | nil =>
    intro s
    simp [remove_files, delNarration, delEvents, M.pure_def, M.pure]
  | cons f rest ih =>
    intro s
    cases hd : env.isDir f with
    | true =>
      simp [remove_files, M.bind_def, M.bind, M.modify, hd, ih, delNarration, delEvents,
            List.filterMap_cons]
    | false =>
      cases hf : env.isFile f with
      | true =>
        simp [remove_files, M.bind_def, M.bind, M.modify, hd, hf, ih,
              delNarration, delEvents, List.filterMap_cons]
      | false =>
        simp [remove_files, M.bind_def, M.bind, M.modify, M.pure_def, M.pure, hd, hf, ih,
              delNarration, delEvents, List.filterMap_cons]

/-- A fully successful `uninstall`: probe, list, delete every manifest
entry, and only then forget the receipt. -/
theorem uninstall_ok (env : Env) (pid volume : String) (io ie fo fe go ge : String)
    (rec : PkgRecord)
    (h1 : env.run (infoCmd pid volume) = (0, io, ie))
    (hp : parse_pkg_info env.realpath io = .ok rec)
    (h2 : env.run (filesCmd pid volume) = (0, fo, fe))
    (h3 : env.run (forgetCmd pid volume) = (0, go, ge)) (s : St) :
    uninstall env pid volume s =
      ({ s with clock := s.clock + 3,
                events := s.events ++
                  [.cmd (infoCmd pid volume), .cmd (filesCmd pid volume)] ++
                  delEvents env (parse_package_files rec.root_dir fo) ++
                  [.cmd (forgetCmd pid volume)],
                commands := s.commands ++
                  [(s.clock,
                    { command_list := infoCmd pid volume, check_rc := false,
                      rc := 0, stdout := io, stderr := ie }),
                   (s.clock + 1,
                    { command_list := filesCmd pid volume, check_rc := true,
                      rc := 0, stdout := fo, stderr := fe }),
                   (s.clock + 2,
                    { command_list := forgetCmd pid volume, check_rc := true,
                      rc := 0, stdout := go, stderr := ge })],
                removal := delNarration env (parse_package_files rec.root_dir fo),
                files_v := some (parse_package_files rec.root_dir fo),
                result := { s.result with
                  pkg_info := some (.present rec),
                  pkg_files := some (parse_package_files rec.root_dir fo),
                  forget := some (0, go, ge) } },
       .ok ()) := by
  simp [uninstall, M.bind_def, M.bind, M.pure_def, M.pure, M.modify,
        package_files_ok env pid volume io ie fo fe rec h1 hp h2,
        remove_files_trace,
        forget_package_ok env pid volume go ge h3]

/-! ## Preservation of the decided `changed` flag

The only assignment to `result['changed']` in the whole module is the
one at source line 371, before any action.  The following lemmas show
every piece of code that can run after that line leaves the flag
untouched, whatever the environment does. -/

/-- `x` never alters `result.changed`, on any state, in success or
failure. -/
def pChanged {α : Type} (x : M α) : Prop :=
  ∀ s : St, ((x s).1).result.changed = s.result.changed

theorem pChanged_pure {α : Type} (a : α) : pChanged (M.pure a) := fun _ => rfl

theorem pChanged_pure' {α : Type} (a : α) : pChanged (pure a : M α) := fun _ => rfl

theorem pChanged_throw {α : Type} (e : Err) : pChanged (M.throw e : M α) := fun _ => rfl

theorem pChanged_modify {f : St → St}
    (hf : ∀ s, (f s).result.changed = s.result.changed) : pChanged (M.modify f) := hf

theorem pChanged_bind {α β : Type} {x : M α} {f : α → M β}
    (hx : pChanged x) (hf : ∀ a, pChanged (f a)) : pChanged (x >>= f) := by
  intro s
  rw [M.bind_def]
  unfold M.bind
  rcases hxs : x s with ⟨s1, r⟩
  have h1 : s1.result.changed = s.result.changed := by
    have := hx s; rw [hxs] at this; exact this
  cases r with
  | ok a =>
    simp only []
    rw [hf a s1, h1]
  | error e =>
    simpa using h1

theorem pChanged_ite {α : Type} {c : Prop} [Decidable c] {x y : M α}
    (hx : pChanged x) (hy : pChanged y) : pChanged (if c then x else y) := by
  by_cases h : c <;> simp [h, hx, hy]

theorem pChanged_gen_timestamp : pChanged gen_timestamp := fun _ => rfl

theorem pChanged_module_run_command (env : Env) (args : List String) (crc : Bool) :
    pChanged (module_run_command env args crc) := by
  unfold module_run_command
  apply pChanged_bind
  · exact pChanged_modify fun _ => rfl
  · intro _
    rcases env.run args with ⟨rc, out, err⟩
    exact pChanged_ite (pChanged_throw _) (pChanged_pure _)

theorem pChanged_run_command (env : Env) (args : List String) (crc : Bool) :
    pChanged (run_command env args crc) := by
  unfold run_command
  apply pChanged_bind (pChanged_module_run_command env args crc)
  rintro ⟨rc, out, err⟩
  apply pChanged_bind pChanged_gen_timestamp
  intro t
  apply pChanged_bind
  · exact pChanged_modify fun _ => rfl
  · intro _
    exact pChanged_pure _

theorem pChanged_pkg_info (env : Env) (pid volume : String) :
    pChanged (pkg_info env pid volume) := by
  unfold pkg_info
  apply pChanged_bind (pChanged_run_command env _ false)
  rintro ⟨rc, out, err⟩
  apply pChanged_ite
  · rcases parse_pkg_info env.realpath out with e | rec
    · exact pChanged_throw _
    · exact pChanged_bind (pChanged_modify fun _ => rfl) fun _ => pChanged_pure _
  · exact pChanged_bind (pChanged_modify fun _ => rfl) fun _ => pChanged_pure _

theorem pChanged_package_files (env : Env) (pid volume : String) :
    pChanged (package_files env pid volume) := by
  unfold package_files
  apply pChanged_bind (pChanged_pkg_info env pid volume)
  intro info
  apply pChanged_bind (pChanged_run_command env _ true)
  rintro ⟨rc, out, err⟩
  cases info with
  | present rec =>
    exact pChanged_bind (pChanged_modify fun _ => rfl) fun _ => pChanged_pure _
  | absent => exact pChanged_throw _

theorem pChanged_forget_package (env : Env) (pid volume : String) :
    pChanged (forget_package env pid volume) := by
  unfold forget_package
  apply pChanged_bind (pChanged_run_command env _ true)
  rintro ⟨rc, out, err⟩
  exact pChanged_bind (pChanged_modify fun _ => rfl) fun _ => pChanged_pure _

theorem pChanged_install (env : Env) (pkg_path target : String) :
    pChanged (install env pkg_path target) := by
  unfold install
  apply pChanged_ite
  · exact pChanged_bind (pChanged_run_command env _ true) fun _ => pChanged_pure _
  · exact pChanged_throw _

theorem pChanged_remove_files (env : Env) (files : List String) :
    pChanged (remove_files env files) := by
  intro s
  rw [remove_files_trace]

theorem pChanged_uninstall (env : Env) (pid volume : String) :
    pChanged (uninstall env pid volume) := by
  unfold uninstall
  apply pChanged_bind (pChanged_package_files env pid volume)
  intro files
  apply pChanged_bind
  · exact pChanged_modify fun _ => rfl
  · intro _
    apply pChanged_bind (pChanged_remove_files env files)
    intro _
    apply pChanged_bind (pChanged_forget_package env pid volume)
    intro _
    exact pChanged_pure _

/-- Everything that runs after the `changed` decision of source line
371 leaves the flag untouched: the action phase of the run never
recomputes it. -/
theorem pChanged_run_module_action (env : Env) (rp : ResolvedParams)
    (target volume : String) (sbp op : Bool) :
    pChanged (run_module_action env rp target volume sbp op) := by
  unfold run_module_action
  apply pChanged_ite
  · exact pChanged_modify fun _ => rfl
  · apply pChanged_bind
    · exact pChanged_modify fun _ => rfl
    · intro _
      apply pChanged_ite
      · apply pChanged_ite
        · exact pChanged_install env _ _
        · exact pChanged_pure _
      · apply pChanged_ite
        · apply pChanged_bind (pChanged_package_files env _ _)
          intro files
          apply pChanged_bind
          · exact pChanged_modify fun _ => rfl
          · intro _
            apply pChanged_ite
            · exact pChanged_uninstall env _ _
            · apply pChanged_bind
              · exact pChanged_modify fun _ => rfl
              · intro _
                exact pChanged_throw _
        · exact pChanged_pure _

/-! ## Characterisation of the transcript parser -/

/-- If `lastMatch` finds nothing, `pat` occurs nowhere in `l`. -/
theorem lastMatch_none_occ {pat : List Char} (hp : pat ≠ []) :
    ∀ l : List Char, lastMatch pat l = none →
      ∀ i, pat.isPrefixOf (l.drop i) = false := by
  intro l
  induction l with
  | nil =>
    intro _ i
    rw [List.drop_nil]
    cases pat with
    | nil => exact absurd rfl hp
    | cons p ps => rfl
  | cons c rest ih =>
    intro h i
    have hrest : lastMatch pat rest = none := by
      cases hlm : lastMatch pat rest with
      | none => rfl
      | some v => simp [lastMatch, hlm] at h
    have hhead : pat.isPrefixOf (c :: rest) = false := by
      by_cases hb : pat.isPrefixOf (c :: rest) = true
      · simp [lastMatch, hrest, hb] at h
      · exact Bool.eq_false_iff.mpr hb
    cases i with
    | zero => simpa using hhead
    | succ i => simpa using ih hrest i

/-- If `lastMatch` returns a value, it is the line captured at an
occurrence of `pat` and no occurrence lies further right. -/
theorem lastMatch_some_occ {pat : List Char} (hp : pat ≠ []) :
    ∀ (l : List Char) (v : List Char), lastMatch pat l = some v →
      ∃ i, pat.isPrefixOf (l.drop i) = true
        ∧ v = takeLine ((l.drop i).drop pat.length)
        ∧ ∀ j, i < j → pat.isPrefixOf (l.drop j) = false := by
  intro l
  induction l with
  | nil =>
    intro v h
    cases pat with
    | nil => exact absurd rfl hp
    | cons p ps => simp [lastMatch, List.isPrefixOf] at h
  | cons c rest ih =>
    intro v h
    cases hlm : lastMatch pat rest with
    | some w =>
      have hv : v = w := by
        simp [lastMatch, hlm] at h
        exact h.symm
      obtain ⟨i, h1, h2, h3⟩ := ih w hlm
      refine ⟨i + 1, by simpa using h1, by simpa [hv] using h2, ?_⟩
      intro j hj
      cases j with
      | zero => omega
      | succ j => simpa using h3 j (by omega)
    | none =>
      have hb : pat.isPrefixOf (c :: rest) = true := by
        by_cases hb : pat.isPrefixOf (c :: rest) = true
        · exact hb
        · have hb' : pat.isPrefixOf (c :: rest) = false := Bool.eq_false_iff.mpr hb
          simp [lastMatch, hlm, hb'] at h
      have hv : v = takeLine ((c :: rest).drop pat.length) := by
        simp [lastMatch, hlm, hb] at h
        exact h.symm
      refine ⟨0, by simpa using hb, by simpa using hv, ?_⟩
      intro j hj
      cases j with
      | zero => omega
      | succ j => simpa using lastMatch_none_occ hp rest hlm j

/-! ## Auxiliary facts about parameter resolution and probing -/

/-- Resolution never hands `run_module` a Python-`None` `pkg_path`
(the argument spec declares `default=\x27\x27`), and the state it hands
over is one of the two declared choices. -/
theorem resolve_params_fields (p : Params) (rp : ResolvedParams)
    (h : resolve_params p = some rp) :
    (∃ v, rp.pkg_path = some v) ∧ (rp.state = "present" ∨ rp.state = "absent") := by
  cases hn : p.app_name with
  | none => simp [resolve_params, hn] at h
  | some an =>
    simp only [resolve_params, hn] at h
    split at h
    · injection h with h
      subst h
      exact ⟨⟨_, rfl⟩, by assumption⟩
    · exact Option.noConfusion h

/-- `is_present` with no package-id: the `creates` existence oracle,
no command run. -/
theorem is_present_none (env : Env) (creates volume : String) (s : St) :
    is_present env creates none volume s = (s, .ok (env.pathExists creates)) := by
  simp [is_present, M.pure_def, M.pure]

/-- `is_present` with a package-id on a host where the info query
succeeds. -/
theorem is_present_some_present (env : Env) (creates pid volume out err : String)
    (rec : PkgRecord)
    (h : env.run (infoCmd pid volume) = (0, out, err))
    (hp : parse_pkg_info env.realpath out = .ok rec) (s : St) :
    is_present env creates (some pid) volume s =
      ({ s with clock := s.clock + 1,
                events := s.events ++ [.cmd (infoCmd pid volume)],
                commands := s.commands ++ [(s.clock,
                  { command_list := infoCmd pid volume, check_rc := false,
                    rc := 0, stdout := out, stderr := err })],
                result := { s.result with pkg_info := some (.present rec) } },
       .ok true) := by
  simp [is_present, M.bind_def, M.bind, M.pure_def, M.pure,
        pkg_info_present env pid volume out err rec h hp]

/-- `is_present` with a package-id on a host where the info query
fails: absent. -/
theorem is_present_some_absent (env : Env) (creates pid volume : String)
    (rc : Int) (out err : String)
    (h : env.run (infoCmd pid volume) = (rc, out, err)) (hrc : rc ≠ 0) (s : St) :
    is_present env creates (some pid) volume s =
      ({ s with clock := s.clock + 1,
                events := s.events ++ [.cmd (infoCmd pid volume)],
                commands := s.commands ++ [(s.clock,
                  { command_list := infoCmd pid volume, check_rc := false,
                    rc := rc, stdout := out, stderr := err })],
                result := { s.result with pkg_info := some .absent } },
       .ok false) := by
  simp [is_present, M.bind_def, M.bind, M.pure_def, M.pure,
        pkg_info_absent env pid volume rc out err h hrc]

/-- On a converged host (actual presence equals desired presence) the
action phase only appends a log message: no command, no deletion, no
state change beyond `messages`. -/
theorem run_module_action_converged (env : Env) (rp : ResolvedParams)
    (target volume : String) (b : Bool) (s : St) :
    run_module_action env rp target volume b b s =
      ({ s with messages := s.messages ++
          [(if env.checkMode then "Checking for " else "Running for ") ++
            rp.app_name ++ " for pkg at " ++ pyShow rp.pkg_path] }, .ok ()) := by
  cases hc : env.checkMode with
  | true => simp [run_module_action, hc, M.bind_def, M.bind, M.pure_def, M.pure, M.modify]
  | false =>
    cases b with
    | true => simp [run_module_action, hc, M.bind_def, M.bind, M.pure_def, M.pure, M.modify]
    | false => simp [run_module_action, hc, M.bind_def, M.bind, M.pure_def, M.pure, M.modify]

/-- Execution of the probe-and-decide prefix from the initial state:
it returns the probed presence, decides `changed` as
`presence != (state == present)`, and emits exactly the probe events. -/
theorem run_module_probe_exec (env : Env) (rp : ResolvedParams) (po pe : String)
    (hpkgs : env.run (pkgsCmd (volume_of env)) = (0, po, pe))
    (hstate : rp.state = "present" ∨ rp.state = "absent")
    (hpp : ∃ v, rp.pkg_path = some v)
    (habs : rp.state = "absent" → rp.package_id ≠ none)
    (hwf : info_wellformed env rp.package_id (volume_of env)) :
    (run_module_probe env rp St.init).2 =
      .ok (probed_presence env (creates_of env rp) rp.package_id (volume_of env))
    ∧ ((run_module_probe env rp St.init).1).result.changed =
        (probed_presence env (creates_of env rp) rp.package_id (volume_of env)
          != decide (rp.state = "present"))
    ∧ ((run_module_probe env rp St.init).1).events =
        probeEvents rp.package_id (volume_of env) := by
  obtain ⟨pkgv, hpp⟩ := hpp
  cases hpid : rp.package_id with
  | none =>
    have hst : rp.state = "present" := by
      rcases hstate with h | h
      · exact h
      · exact absurd hpid (habs h)
    refine ⟨?_, ?_, ?_⟩ <;>
      simp [run_module_probe, M.bind_def, M.bind, M.pure_def, M.pure, M.modify, M.throw,
            hst, hpp, hpid, list_all_packages_ok env (volume_of env) po pe hpkgs,
            is_present_none, probed_presence, probeEvents, St.init]
  | some pid =>
    rcases hi : env.run (infoCmd pid (volume_of env)) with ⟨irc, iout, ierr⟩
    by_cases hirc : irc = 0
    · subst hirc
      have hisok : (parse_pkg_info env.realpath
          (env.run (infoCmd pid (volume_of env))).2.1).isOk = true := by
        have hw := hwf
        simp only [info_wellformed, hpid] at hw
        exact hw (by rw [hi])
      rw [hi] at hisok
      cases hparse : parse_pkg_info env.realpath iout with
      | error e =>
        rw [hparse] at hisok
        exact absurd hisok (by simp [Except.isOk, Except.toBool])
      | ok rec =>
        refine ⟨?_, ?_, ?_⟩ <;>
          simp [run_module_probe, M.bind_def, M.bind, M.pure_def, M.pure, M.modify, M.throw,
                hpp, hpid, list_all_packages_ok env (volume_of env) po pe hpkgs,
                is_present_some_present env (creates_of env rp) pid (volume_of env)
                  iout ierr rec hi hparse,
                probed_presence, probeEvents, hi, St.init]
    · refine ⟨?_, ?_, ?_⟩ <;>
        simp [run_module_probe, M.bind_def, M.bind, M.pure_def, M.pure, M.modify, M.throw,
              hpp, hpid, list_all_packages_ok env (volume_of env) po pe hpkgs,
              is_present_some_absent env (creates_of env rp) pid (volume_of env)
                irc iout ierr hi hirc,
              probed_presence, probeEvents, hi, hirc, St.init]

/-- In check mode the action phase only logs a message, whatever the
decision was. -/
theorem run_module_action_check (env : Env) (rp : ResolvedParams)
    (target volume : String) (sbp op : Bool) (hcm : env.checkMode = true) (s : St) :
    run_module_action env rp target volume sbp op s =
      ({ s with messages := s.messages ++
          ["Checking for " ++ rp.app_name ++ " for pkg at " ++ pyShow rp.pkg_path] },
       .ok ()) := by
  simp [run_module_action, hcm, M.modify]

/-! ## Claim C6 -/

/-- C6: for every transcript and key, `parse_out` returns the value
captured at the last occurrence of `key: ` in the transcript (the
greedy wildcard commits to the rightmost match, and the capture runs to
the end of that line), and when no occurrence exists it fails with the
error carrying the requested key and the full transcript — it never
returns a default. -/
theorem C6_parse_out_last_match (key std_out : String) :
    (∀ v : String, parse_out key std_out = Except.ok v ↔
       ∃ i, (key ++ ": ").data.isPrefixOf (std_out.data.drop i) = true
          ∧ v = String.mk (takeLine ((std_out.data.drop i).drop (key ++ ": ").data.length))
          ∧ ∀ j, i < j → (key ++ ": ").data.isPrefixOf (std_out.data.drop j) = false)
  ∧ (parse_out key std_out =
       Except.error [.str "Key not found in output.", .str key, .str std_out] ↔
     ∀ i, (key ++ ": ").data.isPrefixOf (std_out.data.drop i) = false) := by
  have hp : (key ++ ": ").data ≠ [] := by
    rw [String.data_append]
    simp
  have hnone : lastMatch (key ++ ": ").data std_out.data = none →
      parse_out key std_out =
        Except.error [.str "Key not found in output.", .str key, .str std_out] := by
    intro h
    unfold parse_out
    rw [h]
  have hsome : ∀ w, lastMatch (key ++ ": ").data std_out.data = some w →
      parse_out key std_out = Except.ok (String.mk w) := by
    intro w h
    unfold parse_out
    rw [h]
  constructor
  · intro v
    constructor
    · intro h
      cases hlm : lastMatch (key ++ ": ").data std_out.data with
      | none =>
        rw [hnone hlm] at h
        exact Except.noConfusion h
      | some w =>
        obtain ⟨i, h1, h2, h3⟩ := lastMatch_some_occ hp _ _ hlm
        rw [hsome w hlm] at h
        injection h with hv
        exact ⟨i, h1, by rw [← hv, h2], h3⟩
    · rintro ⟨i, h1, h2, h3⟩
      cases hlm : lastMatch (key ++ ": ").data std_out.data with
      | none =>
        rw [lastMatch_none_occ hp _ hlm i] at h1
        cases h1
      | some w =>
        obtain ⟨i2, g1, g2, g3⟩ := lastMatch_some_occ hp _ _ hlm
        have hii : i = i2 := by
          rcases Nat.lt_trichotomy i i2 with hlt | heq | hgt
          · rw [h3 i2 hlt] at g1; cases g1
          · exact heq
          · rw [g3 i hgt] at h1; cases h1
        subst hii
        rw [hsome w hlm, h2, g2]
  · constructor
    · intro h i
      cases hlm : lastMatch (key ++ ": ").data std_out.data with
      | none => exact lastMatch_none_occ hp _ hlm i
      | some w =>
        rw [hsome w hlm] at h
        exact Except.noConfusion h
    · intro hall
      cases hlm : lastMatch (key ++ ": ").data std_out.data with
      | none => exact hnone hlm
      | some w =>
        obtain ⟨i, h1, _, _⟩ := lastMatch_some_occ hp _ _ hlm
        rw [hall i] at h1
        cases h1

/-! ## Claim C7 -/

/-- C7: the manifest is exactly the listing's lines, in order, each
joined onto `root_dir`, with precisely the lines equal to the empty
string or the literal `Applications` excluded; on the example listing
containing `""`, `Applications` and `Applications/App.app/x` under root
`/R`, the manifest is exactly `["/R/Applications/App.app/x"]`. -/
theorem C7_manifest_exclusion :
    (∀ root_dir std_out : String,
      parse_package_files root_dir std_out =
        ((pySplit '\n' std_out).filter
          (fun t => decide (t ≠ "" ∧ t ≠ "Applications"))).map (os_path_join root_dir))
  ∧ parse_package_files "/R" "\nApplications\nApplications/App.app/x" =
      ["/R/Applications/App.app/x"] := by
  constructor
  · intro root_dir std_out
    unfold parse_package_files
    generalize pySplit '\n' std_out = lines
    suffices h : ∀ acc : List String,
        lines.foldl
          (fun files path_tail =>
            if path_tail ≠ "" ∧ path_tail ≠ "Applications" then
              files ++ [os_path_join root_dir path_tail]
            else files) acc =
        acc ++ (lines.filter
          (fun t => decide (t ≠ "" ∧ t ≠ "Applications"))).map (os_path_join root_dir) by
      simpa using h []
    induction lines with
    | nil => intro acc; simp
    | cons x xs ih =>
      intro acc
      by_cases hx : x ≠ "" ∧ x ≠ "Applications"
      · simp [hx, ih, List.filter_cons]
      · simp [hx, ih, List.filter_cons]
  · decide

/-! ## Claim C9 -/

/-- C9: `find_new_packages` returns exactly the unordered set
difference of the fresh snapshot minus the baseline, its membership is
order- and duplicate-independent, and any baseline with the same
underlying set yields the same answer. -/
theorem C9_diff_new_packages (env : Env) (volume : String)
    (baseline : List String) (out err : String) (s : St)
    (h : env.run (pkgsCmd volume) = (0, out, err)) :
    ((find_new_packages env volume baseline s).2 =
        Except.ok ((pySplit '\n' (pyStrip out)).toFinset \ baseline.toFinset))
  ∧ (∀ a, a ∈ (pySplit '\n' (pyStrip out)).toFinset \ baseline.toFinset ↔
        (a ∈ pySplit '\n' (pyStrip out) ∧ a ∉ baseline))
  ∧ (∀ baseline2 : List String, baseline2.toFinset = baseline.toFinset →
      (find_new_packages env volume baseline2 s).2 =
        (find_new_packages env volume baseline s).2) := by
  refine ⟨?_, ?_, ?_⟩
  · simp [find_new_packages, M.bind_def, M.bind, M.pure_def, M.pure, M.modify,
          list_all_packages_ok env volume out err h]
  · intro a
    simp [Finset.mem_sdiff, List.mem_toFinset]
  · intro baseline2 hb
    simp [find_new_packages, M.bind_def, M.bind, M.pure_def, M.pure, M.modify,
          list_all_packages_ok env volume out err h, hb]

/-- Witness for C9 on the spec's own example: baseline `{a,b,c}` (in
scrambled order, with a duplicate) against snapshot `{a,b,c,d,e}`
yields exactly `{d,e}`. -/
theorem C9_diff_new_packages_witness :
    c9Env.run (pkgsCmd "/") = (0, "a\nb\nc\nd\ne", "")
  ∧ (find_new_packages c9Env "/" ["c", "a", "b", "a"] St.init).2 =
      Except.ok ({"d", "e"} : Finset String) := by
  refine ⟨by decide, ?_⟩
  rw [(C9_diff_new_packages c9Env "/" ["c", "a", "b", "a"] "a\nb\nc\nd\ne" "" St.init
        (by decide)).1]
  exact congrArg Except.ok (by decide)

/-! ## Claim C5 -/

/-- C5 counterexample: on a transcript whose `location` is the absolute
path `/Apps` under volume `/vol`, the code produces
`root_dir = "/vol/Apps"` — the realpath of the naive string
concatenation `volume + '/' + location` — and NOT the realpath of the
absolute location (`"/Apps"`), so the volume prefix is not discarded.
(`realpath_model` is the symlink-free filesystem realpath.) -/
theorem C5_counterexample :
    (parse_pkg_info realpath_model c5Transcript).map PkgRecord.location = Except.ok "/Apps"
  ∧ strHasPre "/" "/Apps" = true
  ∧ (parse_pkg_info realpath_model c5Transcript).map PkgRecord.root_dir =
      Except.ok "/vol/Apps"
  ∧ ("/vol/Apps" : String) ≠ realpath_model "/Apps" :=
  ⟨rfl, rfl, rfl, by decide⟩

/-- C5 amended: in every parsed record, `root_dir` is the realpath of
the naive string concatenation `volume + '/' + location`; an absolute
`location` is therefore kept under the volume prefix rather than
collapsing the join (the source comment rejects filesystem join
semantics on purpose). -/
theorem C5_amended_root_dir_concat (realpath : String → String) (std_out : String)
    (rec : PkgRecord) (h : parse_pkg_info realpath std_out = Except.ok rec) :
    rec.root_dir = realpath (rec.volume ++ "/" ++ rec.location) := by
  unfold parse_pkg_info at h
  cases h1 : parse_out "install-time" std_out with
  | error e => simp [h1] at h
  | ok its =>
    simp only [h1] at h
    cases h2 : pyInt its with
    | none => simp [h2] at h
    | some n =>
      simp only [h2] at h
      cases h3 : parse_out "volume" std_out with
      | error e => simp [h3] at h
      | ok vol =>
        simp only [h3] at h
        cases h4 : parse_out "location" std_out with
        | error e => simp [h4] at h
        | ok loc =>
          simp only [h4] at h
          cases h5 : parse_out "package-id" std_out with
          | error e => simp [h5] at h
          | ok pid =>
            simp only [h5] at h
            cases h6 : parse_out "version" std_out with
            | error e => simp [h6] at h
            | ok ver =>
              simp only [h6, Except.ok.injEq] at h
              rw [← h]

/-- Witness for the amended C5 at the concrete transcript. -/
theorem C5_amended_root_dir_concat_witness :
    parse_pkg_info realpath_model c5Transcript =
      Except.ok { package_id := "com.example.pkg", version := "1.0",
                  volume := "/vol", location := "/Apps",
                  root_dir := "/vol/Apps", install_timestamp := 100 }
  ∧ ({ package_id := "com.example.pkg", version := "1.0",
       volume := "/vol", location := "/Apps",
       root_dir := "/vol/Apps", install_timestamp := 100 : PkgRecord }).root_dir =
      realpath_model ("/vol" ++ "/" ++ "/Apps") :=
  ⟨rfl, C5_amended_root_dir_concat realpath_model c5Transcript _ rfl⟩

/-! ## Claim C2 -/

/-- C2: in every run that reaches the decision (valid parameters, a
successful list-all snapshot, a well-behaved info probe), the reported
`changed` flag — whether the run later exits cleanly or fails — equals
`presence at the initial probe != (state == present)`, and a run
against an already-converged host exits cleanly with `changed = false`
having emitted only the probe commands: no install, deletion or forget
action. -/
theorem C2_changed_flag (env : Env) (p : Params) (rp : ResolvedParams) (po pe : String)
    (hres : resolve_params p = some rp)
    (hpkgs : env.run (pkgsCmd (volume_of env)) = (0, po, pe))
    (habs : rp.state = "absent" → rp.package_id ≠ none)
    (hwf : info_wellformed env rp.package_id (volume_of env)) :
    (∀ r : ResultRec, (run_module env p).2.resultOf = some r →
        r.changed = (probed_presence env (creates_of env rp) rp.package_id (volume_of env)
                      != decide (rp.state = "present")))
  ∧ (probed_presence env (creates_of env rp) rp.package_id (volume_of env)
        = decide (rp.state = "present") →
      (run_module env p).2 = FinalOut.exitJson ((run_module env p).1).result
        ∧ ((run_module env p).1).result.changed = false
        ∧ (run_module env p).1.events = probeEvents rp.package_id (volume_of env)) := by
  obtain ⟨hpp, hstate⟩ := resolve_params_fields p rp hres
  have hfacts := run_module_probe_exec env rp po pe hpkgs hstate hpp habs hwf
  rcases hpre : run_module_probe env rp St.init with ⟨s2, rr⟩
  rw [hpre] at hfacts
  dsimp only at hfacts
  obtain ⟨hrr, hchanged, hevents⟩ := hfacts
  subst hrr
  have htry : run_module_try env rp St.init =
      run_module_action env rp (target_of env rp) (volume_of env)
        (decide (rp.state = "present"))
        (probed_presence env (creates_of env rp) rp.package_id (volume_of env)) s2 := by
    simp only [run_module_try, M.bind_def, M.bind, hpre]
  rcases hfin : run_module_action env rp (target_of env rp) (volume_of env)
      (decide (rp.state = "present"))
      (probed_presence env (creates_of env rp) rp.package_id (volume_of env)) s2
    with ⟨sf, res⟩
  have hsf : sf.result.changed =
      (probed_presence env (creates_of env rp) rp.package_id (volume_of env)
        != decide (rp.state = "present")) := by
    have hpc := pChanged_run_module_action env rp (target_of env rp) (volume_of env)
      (decide (rp.state = "present"))
      (probed_presence env (creates_of env rp) rp.package_id (volume_of env)) s2
    rw [hfin] at hpc
    have hpc2 : sf.result.changed = s2.result.changed := by simpa using hpc
    rw [hpc2, hchanged]
  constructor
  · intro r hr
    simp only [run_module, hres] at hr
    rw [htry, hfin] at hr
    cases res with
    | ok u =>
      cases u
      simp only [FinalOut.resultOf] at hr
      obtain rfl : sf.result = r := by simpa using hr
      exact hsf
    | error e =>
      cases e with
      | pkgExc args =>
        simp only [FinalOut.resultOf] at hr
        obtain rfl : { sf.result with error := some args } = r := by simpa using hr
        simpa using hsf
      | fatal m =>
        simp only [FinalOut.resultOf] at hr
        exact Option.noConfusion hr
  · intro hconv
    rw [hconv] at htry
    rw [run_module_action_converged] at htry
    have hrm : run_module env p =
        ({ s2 with messages := s2.messages ++
            [(if env.checkMode then "Checking for " else "Running for ") ++
              rp.app_name ++ " for pkg at " ++ pyShow rp.pkg_path] },
         FinalOut.exitJson s2.result) := by
      simp only [run_module, hres, htry]
    rw [hrm]
    refine ⟨rfl, ?_, ?_⟩
    · show s2.result.changed = false
      rw [hchanged, hconv]
      simp
    · show s2.events = probeEvents rp.package_id (volume_of env)
      exact hevents

/-- Witness for C2: a run of a `state=present` task against a host
where the package is already installed exits cleanly with
`changed = false`. -/
theorem C2_changed_flag_witness :
    (run_module wEnv wParamsPresent).2.isExit = true
  ∧ ((run_module wEnv wParamsPresent).1).result.changed = false := by
  have h := (C2_changed_flag wEnv wParamsPresent
      { app_name := "X", pkg_path := some "/tmp/x.pkg", creates := none,
        state := "present", target := none, package_id := some "com.x",
        confident_to_remove := false }
      "a.pkg\ncom.x" "" (by decide) (by decide) (by decide)
      (by simp only [info_wellformed]; decide)).2 (by decide)
  refine ⟨?_, h.2.1⟩
  rw [h.1]
  rfl

/-! ## Claim C10 -/

/-- C10: a check-mode run that reaches the decision performs no
install, deletion or forget action — its event trace is exactly the
list-all snapshot and the presence probe — yet it still exits cleanly
reporting the `changed` flag computed by the same
`presence != (state == present)` rule as a real run. -/
theorem C10_check_mode (env : Env) (p : Params) (rp : ResolvedParams) (po pe : String)
    (hres : resolve_params p = some rp)
    (hcm : env.checkMode = true)
    (hpkgs : env.run (pkgsCmd (volume_of env)) = (0, po, pe))
    (habs : rp.state = "absent" → rp.package_id ≠ none)
    (hwf : info_wellformed env rp.package_id (volume_of env)) :
    (run_module env p).2 = FinalOut.exitJson ((run_module env p).1).result
  ∧ ((run_module env p).1).result.changed =
      (probed_presence env (creates_of env rp) rp.package_id (volume_of env)
        != decide (rp.state = "present"))
  ∧ (run_module env p).1.events = probeEvents rp.package_id (volume_of env) := by
  obtain ⟨hpp, hstate⟩ := resolve_params_fields p rp hres
  have hfacts := run_module_probe_exec env rp po pe hpkgs hstate hpp habs hwf
  rcases hpre : run_module_probe env rp St.init with ⟨s2, rr⟩
  rw [hpre] at hfacts
  dsimp only at hfacts
  obtain ⟨hrr, hchanged, hevents⟩ := hfacts
  subst hrr
  have htry : run_module_try env rp St.init =
      ({ s2 with messages := s2.messages ++
          ["Checking for " ++ rp.app_name ++ " for pkg at " ++ pyShow rp.pkg_path] },
       .ok ()) := by
    simp only [run_module_try, M.bind_def, M.bind, hpre,
               run_module_action_check env rp (target_of env rp) (volume_of env) _ _ hcm]
  have hrm : run_module env p =
      ({ s2 with messages := s2.messages ++
          ["Checking for " ++ rp.app_name ++ " for pkg at " ++ pyShow rp.pkg_path] },
       FinalOut.exitJson s2.result) := by
    simp only [run_module, hres, htry]
  rw [hrm]
  exact ⟨rfl, hchanged, hevents⟩

/-- Witness for C10: a check-mode run of an absent-state task against
a host where the package is present reports `changed = true` and emits
only the two probe commands. -/
theorem C10_check_mode_witness :
    (run_module wEnvCheck wParamsAbsent).2 =
      FinalOut.exitJson ((run_module wEnvCheck wParamsAbsent).1).result
  ∧ ((run_module wEnvCheck wParamsAbsent).1).result.changed = true
  ∧ (run_module wEnvCheck wParamsAbsent).1.events =
      [Event.cmd (pkgsCmd "/"), Event.cmd (infoCmd "com.x" "/")] := by
  have h := C10_check_mode wEnvCheck wParamsAbsent
      { app_name := "X", pkg_path := some "", creates := none,
        state := "absent", target := none, package_id := some "com.x",
        confident_to_remove := false }
      "a.pkg\ncom.x" "" (by decide) (by decide) (by decide) (by decide)
      (by simp only [info_wellformed]; decide)
  refine ⟨h.1, ?_, ?_⟩
  · rw [h.2.1]
    decide
  · rw [h.2.2]
    decide

/-! ## Claim C3 -/

/-- A manifest entry that is neither an existing directory nor an
existing file contributes no deletion event. -/
theorem delEvents_skips (env : Env) (files : List String) (f : String)
    (hd : env.isDir f = false) (hf : env.isFile f = false) :
    Event.rmtree f ∉ delEvents env files ∧ Event.remove f ∉ delEvents env files := by
  constructor
  · intro hmem
    rw [delEvents, List.mem_filterMap] at hmem
    obtain ⟨a, -, hEq⟩ := hmem
    by_cases hda : env.isDir a = true
    · rw [if_pos hda] at hEq
      have ha : a = f := by
        have := Option.some.inj hEq
        injection this
      subst ha
      rw [hd] at hda
      exact Bool.noConfusion hda
    · rw [if_neg hda] at hEq
      by_cases hfa : env.isFile a = true
      · rw [if_pos hfa] at hEq
        have := Option.some.inj hEq
        exact Event.noConfusion this
      · rw [if_neg hfa] at hEq
        exact Option.noConfusion hEq
  · intro hmem
    rw [delEvents, List.mem_filterMap] at hmem
    obtain ⟨a, -, hEq⟩ := hmem
    by_cases hda : env.isDir a = true
    · rw [if_pos hda] at hEq
      have := Option.some.inj hEq
      exact Event.noConfusion this
    · rw [if_neg hda] at hEq
      by_cases hfa : env.isFile a = true
      · rw [if_pos hfa] at hEq
        have ha : a = f := by
          have := Option.some.inj hEq
          injection this
        subst ha
        rw [hf] at hfa
        exact Bool.noConfusion hfa
      · rw [if_neg hfa] at hEq
        exact Option.noConfusion hEq

/-- C3: in a successful `uninstall`, the emitted trace is exactly the
info probe, the files listing, one deletion event per
existing-directory-or-file manifest entry in manifest order, and the
forget-receipt command LAST — the receipt is only forgotten after
deletion has been attempted for every manifest entry; entries that are
neither an existing directory nor an existing file are skipped without
error (the run still returns cleanly, and they contribute no deletion
event). -/
theorem C3_uninstall_order (env : Env) (pid volume : String)
    (io ie fo fe go ge : String) (rec : PkgRecord)
    (h1 : env.run (infoCmd pid volume) = (0, io, ie))
    (hp : parse_pkg_info env.realpath io = Except.ok rec)
    (h2 : env.run (filesCmd pid volume) = (0, fo, fe))
    (h3 : env.run (forgetCmd pid volume) = (0, go, ge)) (s : St) :
    ((uninstall env pid volume s).2 = Except.ok ())
  ∧ ((uninstall env pid volume s).1.events = s.events ++
      [.cmd (infoCmd pid volume), .cmd (filesCmd pid volume)] ++
      delEvents env (parse_package_files rec.root_dir fo) ++
      [.cmd (forgetCmd pid volume)])
  ∧ (∀ f, env.isDir f = false → env.isFile f = false →
      Event.rmtree f ∉ delEvents env (parse_package_files rec.root_dir fo) ∧
      Event.remove f ∉ delEvents env (parse_package_files rec.root_dir fo)) := by
  refine ⟨?_, ?_, ?_⟩
  · rw [uninstall_ok env pid volume io ie fo fe go ge rec h1 hp h2 h3 s]
  · rw [uninstall_ok env pid volume io ie fo fe go ge rec h1 hp h2 h3 s]
  · intro f hd hf
    exact delEvents_skips env _ f hd hf

/-- Witness for C3: uninstalling `com.x` on the fixture host deletes
the one manifest entry that still exists, silently skips the one that
does not, and forgets the receipt last. -/
theorem C3_uninstall_order_witness :
    (uninstall wEnv "com.x" "/" St.init).2 = Except.ok ()
  ∧ (uninstall wEnv "com.x" "/" St.init).1.events =
      [Event.cmd (infoCmd "com.x" "/"), Event.cmd (filesCmd "com.x" "/"),
       Event.remove "/Library/X/f1", Event.cmd (forgetCmd "com.x" "/")] := by
  have h := C3_uninstall_order wEnv "com.x" "/" wTranscript "" "f1\nf2" ""
      "Forgot package com.x." ""
      { package_id := "com.x", version := "1.0", volume := "/",
        location := "Library/X", root_dir := "/Library/X", install_timestamp := 100 }
      (by decide) (by decide) (by decide) (by decide) St.init
  refine ⟨h.1, ?_⟩
  rw [h.2.1]
  decide

/-! ## Claim C1 -/

/-- C1: in a run with desired state absent against an actually-present
package, with `confident_to_remove` false the engine never calls
`uninstall` — the trace holds probes only (no deletion event, no
forget-receipt command) and the run fails with the
`Not confident_to_remove` error whose reported payload carries the
full file manifest; with `confident_to_remove` true, `uninstall` is
called (the forget-receipt command appears in the trace). -/
theorem C1_safety_gate (env : Env) (p : Params) (rp : ResolvedParams)
    (pid po pe io ie fo fe : String) (rec : PkgRecord)
    (hres : resolve_params p = some rp)
    (hstate : rp.state = "absent")
    (hpid : rp.package_id = some pid)
    (hcm : env.checkMode = false)
    (hpkgs : env.run (pkgsCmd (volume_of env)) = (0, po, pe))
    (hinfo : env.run (infoCmd pid (volume_of env)) = (0, io, ie))
    (hparse : parse_pkg_info env.realpath io = Except.ok rec)
    (hfiles : env.run (filesCmd pid (volume_of env)) = (0, fo, fe)) :
    (rp.confident_to_remove = false →
        (run_module env p).2 =
          FinalOut.failJson
            [.str "Not confident_to_remove this package",
             .str "Review the files and become confident to continue"]
            ((run_module env p).1).result
      ∧ ((run_module env p).1).result.files =
          some (parse_package_files rec.root_dir fo)
      ∧ ((run_module env p).1).result.error =
          some [.str "Not confident_to_remove this package",
                .str "Review the files and become confident to continue"]
      ∧ (run_module env p).1.events =
          [.cmd (pkgsCmd (volume_of env)), .cmd (infoCmd pid (volume_of env)),
           .cmd (infoCmd pid (volume_of env)), .cmd (filesCmd pid (volume_of env))])
  ∧ (rp.confident_to_remove = true →
      Event.cmd (forgetCmd pid (volume_of env)) ∈ (run_module env p).1.events) := by
  obtain ⟨hpp, hstateo⟩ := resolve_params_fields p rp hres
  have hwf : info_wellformed env rp.package_id (volume_of env) := by
    simp only [info_wellformed, hpid]
    intro _
    rw [hinfo]
    simp [hparse, Except.isOk, Except.toBool]
  have habs : rp.state = "absent" → rp.package_id ≠ none := by
    intro _
    rw [hpid]
    exact fun h => Option.noConfusion h
  have hfacts := run_module_probe_exec env rp po pe hpkgs hstateo hpp habs hwf
  rcases hpre : run_module_probe env rp St.init with ⟨s2, rr⟩
  rw [hpre] at hfacts
  dsimp only at hfacts
  obtain ⟨hrr, hchanged, hevents⟩ := hfacts
  subst hrr
  have hop : probed_presence env (creates_of env rp) rp.package_id (volume_of env) = true := by
    simp [probed_presence, hpid, hinfo]
  have hsbp : decide (rp.state = "present") = false := by simp [hstate]
  have htry : run_module_try env rp St.init =
      run_module_action env rp (target_of env rp) (volume_of env) false true s2 := by
    rw [run_module_try]
    simp only [M.bind_def, M.bind, hpre, hop, hsbp]
  have heventsx : s2.events = [Event.cmd (pkgsCmd (volume_of env)),
      Event.cmd (infoCmd pid (volume_of env))] := by
    rw [hevents]
    simp [probeEvents, hpid]
  constructor
  · intro hconf
    refine ⟨?_, ?_, ?_, ?_⟩ <;>
      simp [run_module, hres, htry, run_module_action, hcm, hconf, hpid, pyShow,
            M.bind_def, M.bind, M.pure_def, M.pure, M.modify, M.throw,
            package_files_ok env pid (volume_of env) io ie fo fe rec hinfo hparse hfiles,
            heventsx]
  · intro hconf
    rcases hfg : env.run (forgetCmd pid (volume_of env)) with ⟨frc, fgo, fge⟩
    by_cases hfrc : frc = 0
    · subst hfrc
      simp [run_module, hres, htry, run_module_action, hcm, hconf, hpid, pyShow,
            M.bind_def, M.bind, M.pure_def, M.pure, M.modify, M.throw,
            package_files_ok env pid (volume_of env) io ie fo fe rec hinfo hparse hfiles,
            uninstall_ok env pid (volume_of env) io ie fo fe fgo fge rec hinfo hparse hfiles hfg]
    · simp [run_module, hres, htry, run_module_action, hcm, hconf, hpid, pyShow,
            M.bind_def, M.bind, M.pure_def, M.pure, M.modify, M.throw,
            package_files_ok env pid (volume_of env) io ie fo fe rec hinfo hparse hfiles,
            uninstall, remove_files_trace,
            forget_package_fatal env pid (volume_of env) frc fgo fge hfg hfrc]

/-- Witness for C1 on the fixture host, once with the gate closed and
once with it open. -/
theorem C1_safety_gate_witness :
    ((run_module wEnv wParamsAbsent).2 =
      FinalOut.failJson
        [.str "Not confident_to_remove this package",
         .str "Review the files and become confident to continue"]
        ((run_module wEnv wParamsAbsent).1).result)
  ∧ ((run_module wEnv wParamsAbsent).1).result.files =
      some ["/Library/X/f1", "/Library/X/f2"]
  ∧ Event.cmd (forgetCmd "com.x" "/") ∈ (run_module wEnv wParamsAbsentConfident).1.events := by
  have ha := C1_safety_gate wEnv wParamsAbsent
      { app_name := "X", pkg_path := some "", creates := none, state := "absent",
        target := none, package_id := some "com.x", confident_to_remove := false }
      "com.x" "a.pkg\ncom.x" "" wTranscript "" "f1\nf2" ""
      { package_id := "com.x", version := "1.0", volume := "/",
        location := "Library/X", root_dir := "/Library/X", install_timestamp := 100 }
      (by decide) (by decide) (by decide) (by decide) (by decide) (by decide)
      (by decide) (by decide)
  have hb := C1_safety_gate wEnv wParamsAbsentConfident
      { app_name := "X", pkg_path := some "", creates := none, state := "absent",
        target := none, package_id := some "com.x", confident_to_remove := true }
      "com.x" "a.pkg\ncom.x" "" wTranscript "" "f1\nf2" ""
      { package_id := "com.x", version := "1.0", volume := "/",
        location := "Library/X", root_dir := "/Library/X", install_timestamp := 100 }
      (by decide) (by decide) (by decide) (by decide) (by decide) (by decide)
      (by decide) (by decide)
  refine ⟨(ha.1 (by decide)).1, ?_, hb.2 (by decide)⟩
  rw [(ha.1 (by decide)).2.1]
  decide

/-! ## Claim C4 -/

/-- C4 counterexample: the list-all command is attempted (it is in the
event trace, and it succeeds and yields the snapshot) yet appends NO
entry to the audit trail `verbose_result['commands']` — the source
invokes `module.run_command` directly instead of the wrapper, so the
claim that every attempted external command appends exactly one
audit-trail entry is false. -/
theorem C4_counterexample :
    (list_all_packages wEnv "/" St.init).1.events = [Event.cmd (pkgsCmd "/")]
  ∧ (list_all_packages wEnv "/" St.init).1.commands = []
  ∧ (list_all_packages wEnv "/" St.init).2 = Except.ok ["a.pkg", "com.x"] := by
  refine ⟨by decide, by decide, by decide⟩

/-- C4 amended: every command attempted through the `run_command`
wrapper (info query, files listing, forget, apply) appends exactly one
clock-stamped entry to the audit trail — including failing commands
when `check_rc` is false; a `check_rc=true` command that exits nonzero
terminates the run inside the harness before the wrapper appends its
entry (the attempt is still in the event trace); and the list-all
command bypasses the wrapper entirely: its attempt is recorded under
the separate `all_packages` record, never in the audit trail. -/
theorem C4_audit_trail_amended :
    (∀ (env : Env) (args : List String) (crc : Bool) (rc : Int) (out err : String) (s : St),
        env.run args = (rc, out, err) → (crc = false ∨ rc = 0) →
        (run_command env args crc s).1.commands =
            s.commands ++ [(s.clock, { command_list := args, check_rc := crc,
                                       rc := rc, stdout := out, stderr := err })]
          ∧ (run_command env args crc s).1.events = s.events ++ [.cmd args])
  ∧ (∀ (env : Env) (args : List String) (rc : Int) (out err : String) (s : St),
        env.run args = (rc, out, err) → rc ≠ 0 →
        (run_command env args true s).1.commands = s.commands
          ∧ (run_command env args true s).2 = .error (.fatal "process execution failed")
          ∧ (run_command env args true s).1.events = s.events ++ [.cmd args])
  ∧ (∀ (env : Env) (volume : String) (s : St),
        (list_all_packages env volume s).1.commands = s.commands
          ∧ (list_all_packages env volume s).1.events = s.events ++ [.cmd (pkgsCmd volume)]
          ∧ (list_all_packages env volume s).1.all_packages = some (env.run (pkgsCmd volume))) := by
  refine ⟨?_, ?_, ?_⟩
  · intro env args crc rc out err s h hok
    rcases hok with hcrc | hrc0
    · subst hcrc
      rw [run_command_noCheck env args rc out err h s]
      exact ⟨rfl, rfl⟩
    · subst hrc0
      cases crc with
      | false =>
        rw [run_command_noCheck env args 0 out err h s]
        exact ⟨rfl, rfl⟩
      | true =>
        rw [run_command_ok env args out err h s]
        exact ⟨rfl, rfl⟩
  · intro env args rc out err s h hrc
    rw [run_command_fatal env args rc out err h hrc s]
    exact ⟨rfl, rfl, rfl⟩
  · intro env volume s
    rcases h : env.run (pkgsCmd volume) with ⟨rc, out, err⟩
    by_cases hrc : rc = 0
    · subst hrc
      rw [list_all_packages_ok env volume out err h s]
      exact ⟨rfl, rfl, rfl⟩
    · rw [list_all_packages_fail env volume rc out err h hrc s]
      exact ⟨rfl, rfl, rfl⟩

/-- Witness for the amended C4: one wrapped info query appends exactly
its one audit-trail entry. -/
theorem C4_audit_trail_amended_witness :
    (run_command wEnv (infoCmd "com.x" "/") false St.init).1.commands =
      [(0, { command_list := infoCmd "com.x" "/", check_rc := false,
             rc := 0, stdout := wTranscript, stderr := "" })] := by
  rw [(C4_audit_trail_amended.1 wEnv (infoCmd "com.x" "/") false 0 wTranscript "" St.init
      (by decide) (Or.inl rfl)).1]
  decide

/-! ## Claim C8 -/

/-- C8: the failing input.  The caller supplies `state=present` and no
`pkg_path`; the harness applies the declared default `pkg_path=""`
(not Python `None`), so the `Missing pkg_path when state is present`
guard at source line 358 never fires, and against a host where the
package is already present the run EXITS SUCCESSFULLY with
`changed = false` and no error — the claim that every such run fails
reporting the missing `pkg_path` is contradicted by the code. -/
theorem C8_pkg_path_default_bypasses_check :
    resolve_params c8Params =
      some { app_name := "X", pkg_path := some "", creates := none,
             state := "present", target := none, package_id := some "com.x",
             confident_to_remove := false }
  ∧ (run_module wEnv c8Params).2.isExit = true
  ∧ ((run_module wEnv c8Params).1).result.changed = false
  ∧ ((run_module wEnv c8Params).1).result.error = none := by
  refine ⟨by decide, by decide, by decide, by decide⟩

end OsxPkg
